import Mathlib

/-!
Verification of the Mission Control autonomous workloop scheduler
(`workloop.cjs`): a shallow embedding of its persisted scheduler state,
backoff/quarantine manager, durable mention queue, and the per-tick
priority dispatcher, together with theorems about the scheduling,
deduplication, backoff and reaping behaviour.

Timestamps are modelled as natural numbers (milliseconds).  Comparisons
of the form `a < now - ttl` from the source are written in the
subtraction-free form `a + ttl < now`, which agrees with the source on
all non-negative timestamps.
-/

namespace Workloop

/-- Entry of the persisted backoff table: `{ until, strikes, reason, lastAt }`. -/
structure BackoffEntry where
  untilMs : Nat
  strikes : Nat
  reason : String
  lastAt : Nat
deriving Repr, DecidableEq

/-- The persisted scheduler state (`workloop.state.json`), restricted to the
fields the scheduler logic reads and writes: rate counters, backoff table and
the `hr` weekly-report bookkeeping. -/
structure WorkState where
  lastAgentRunAt : Nat
  agentRunsThisHour : Nat
  hourStartedAt : Nat
  tickCount : Nat
  backoff : String → Option BackoffEntry
  lastWeeklyWeek : Option String
  lastWeeklyAt : Nat

/-- Fresh state produced by `readState` when no state file exists. -/
def initialState (now : Nat) : WorkState :=
  { lastAgentRunAt := 0
    agentRunsThisHour := 0
    hourStartedAt := now
    tickCount := 0
    backoff := fun _ => none
    lastWeeklyWeek := none
    lastWeeklyAt := 0 }

/-- The `backoffInfo` helper: returns the entry for `key` unless it is absent
or already expired (`until <= now`). -/
def backoffInfo (now : Nat) (st : WorkState) (key : String) : Option BackoffEntry :=
  match st.backoff key with
  | none => none
  | some b => if b.untilMs ≤ now then none else some b

/-- Strikes currently recorded for `key` (`(st.backoff[key] || { strikes: 0 }).strikes`). -/
def getStrikes (st : WorkState) (key : String) : Nat :=
  match st.backoff key with
  | some b => b.strikes
  | none => 0

/-- The `setBackoff` failure recorder: strikes capped at 10, cooldown minutes
`min(120, 5 * 2^(strikes-1))`, `until = now + cooldown`. -/
def setBackoff (now : Nat) (st : WorkState) (key : String) (reason : String) : WorkState :=
  let strikes := min 10 (getStrikes st key + 1)
  let mins := min 120 (5 * 2 ^ (strikes - 1))
  { st with backoff := fun k =>
      if k = key then some { untilMs := now + mins * 60 * 1000, strikes := strikes, reason := reason, lastAt := now }
      else st.backoff k }

/-- The `clearBackoff` helper: deletes the entry for `key`. -/
def clearBackoff (st : WorkState) (key : String) : WorkState :=
  { st with backoff := fun k => if k = key then none else st.backoff k }

/-- A sequence of consecutive `setBackoff` calls on the same key, one per
timestamp in the list, with no intervening `clearBackoff`. -/
def recordFailures (key reason : String) : WorkState → List Nat → WorkState
  | st, [] => st
  | st, t :: ts => recordFailures key reason (setBackoff t st key reason) ts

theorem getStrikes_setBackoff (now : Nat) (st : WorkState) (key reason : String) :
    getStrikes (setBackoff now st key reason) key = min 10 (getStrikes st key + 1) := by
  simp [getStrikes, setBackoff]

theorem recordFailures_append (key reason : String) (l1 l2 : List Nat) (st : WorkState) :
    recordFailures key reason st (l1 ++ l2)
      = recordFailures key reason (recordFailures key reason st l1) l2 := by
  induction l1 generalizing st with
  | nil => simp [recordFailures]
  | cons t ts ih => simp [recordFailures, ih]

theorem recordFailures_strikes (key reason : String) (ts : List Nat) (st : WorkState)
    (h : getStrikes st key ≤ 10) :
    getStrikes (recordFailures key reason st ts) key = min 10 (getStrikes st key + ts.length) := by
  induction ts generalizing st with
  | nil => simp [recordFailures]; omega
  | cons t ts ih =>
    rw [recordFailures, ih _ (by rw [getStrikes_setBackoff]; omega), getStrikes_setBackoff]
    simp only [List.length_cons]
    omega

/-- C3 (amended): `n` consecutive `recordFailure` calls on a fresh key, the
last at time `tn`, produce `strikes = min(10, n)` and
`until = tn + min(120, 5·2^(strikes-1))` minutes.  The resulting cooldown
sequence is 5, 10, 20, 40, 80 minutes, then capped at 120. -/
theorem backoff_growth (key reason : String) (ts : List Nat) (tn : Nat) (st : WorkState)
    (h0 : st.backoff key = none) :
    (recordFailures key reason st (ts ++ [tn])).backoff key =
      some { untilMs := tn + (min 120 (5 * 2 ^ (min 10 (ts.length + 1) - 1))) * 60 * 1000
             strikes := min 10 (ts.length + 1)
             reason := reason
             lastAt := tn } := by
  rw [recordFailures_append]
  have hs : getStrikes (recordFailures key reason st ts) key = min 10 ts.length := by
    have h1 : getStrikes st key = 0 := by simp [getStrikes, h0]
    rw [recordFailures_strikes key reason ts st (by omega), h1]
    omega
  rw [recordFailures, recordFailures]
  simp only [setBackoff, hs]
  have hmin : min 10 (min 10 ts.length + 1) = min 10 (ts.length + 1) := by omega
  simp [hmin]

/-- Witness for `backoff_growth`: three consecutive failures on a fresh key,
the last at `t = 300`, give `strikes = 3` and a 20-minute cooldown. -/
theorem backoff_growth_witness :
    (recordFailures "k" "spawn_failed" (initialState 0) ([100, 200] ++ [300])).backoff "k" =
      some { untilMs := 300 + (min 120 (5 * 2 ^ (min 10 (([100, 200] : List Nat).length + 1) - 1))) * 60 * 1000
             strikes := min 10 (([100, 200] : List Nat).length + 1)
             reason := "spawn_failed"
             lastAt := 300 } :=
  backoff_growth "k" "spawn_failed" [100, 200] 300 (initialState 0) rfl

/-- Counterexample to C3 as stated: the claimed cooldown sequence
"5, 10, 20, 40, 60 minutes" is wrong at the fifth consecutive failure, where
the code's `min(120, 5·2^(5-1))` gives 80 minutes, not 60. -/
theorem backoff_counterexample :
    ((recordFailures "k" "agent_blocked" (initialState 0) [0, 0, 0, 0, 0]).backoff "k").map
        (fun b => b.untilMs) = some (80 * 60 * 1000)
      ∧ (80 * 60 * 1000 : Nat) ≠ 60 * 60 * 1000 :=
  ⟨rfl, by decide⟩

/-! ## Mention queue: schema, normalization and enqueue -/

/-- Row of the `mention_queue` table. -/
structure QueueItem where
  id : String
  kind : String
  sourceId : String
  taskId : String
  agentId : String
  createdAt : Nat
  status : String
  processingStartedAt : Option Nat
  tries : Nat
  lastError : Option String
deriving Repr, DecidableEq

/-- JavaScript `String.prototype.trim` on the character list: drop whitespace
from both ends. -/
def jsTrim (l : List Char) : List Char :=
  ((l.dropWhile Char.isWhitespace).reverse.dropWhile Char.isWhitespace).reverse

/-- The set of real OpenClaw agent ids accepted by the normalizer, as
character lists. -/
def allowedAgents : List (List Char) :=
  ["zeus".data, "hermes".data, "apollo".data, "artemis".data, "ares".data, "prometheus".data]

/-- The same six agent ids as strings. -/
def allowedAgentStrings : List String :=
  ["zeus", "hermes", "apollo", "artemis", "ares", "prometheus"]

/-- The `normalizeMentionAgentId` routine: trim and lowercase the raw
reference, drop empty results, route `jarvis` to `zeus`, and accept only the
six known agent ids. -/
def normalizeMentionAgentId (agentId : String) : Option String :=
  let a : List Char := (jsTrim agentId.data).map Char.toLower
  if a = [] then none
  else if a = "jarvis".data then some "zeus"
  else if a ∈ allowedAgents then some (String.mk a)
  else none

/-- The fresh row inserted by `enqueueMention` (`status 'pending', tries 0`). -/
def newQueueItem (newId kind sourceId taskId agentId : String) (createdAt : Nat) : QueueItem :=
  { id := newId, kind := kind, sourceId := sourceId, taskId := taskId, agentId := agentId,
    createdAt := createdAt, status := "pending", processingStartedAt := none, tries := 0,
    lastError := none }

/-- Test for the unique index `uq_mention_queue(kind, source_id, agent_id)`. -/
def sameTupleB (it : QueueItem) (kind sourceId agentId : String) : Bool :=
  it.kind == kind && it.sourceId == sourceId && it.agentId == agentId

/-- The `enqueueMention` routine: normalize the agent reference (dropping the
call when unroutable), then `INSERT OR IGNORE` a pending row, where the ignore
fires on a conflict of the primary key `id` or of the unique
`(kind, source_id, agent_id)` index. -/
def enqueueMention (newId : String) (q : List QueueItem)
    (kind sourceId taskId agentRef : String) (createdAt : Nat) : List QueueItem :=
  match normalizeMentionAgentId agentRef with
  | none => q
  | some norm =>
      if q.any (fun it => it.id == newId || sameTupleB it kind sourceId norm) then q
      else q ++ [newQueueItem newId kind sourceId taskId norm createdAt]

/-- Arguments of one `enqueueMention` call, together with the random row id
(`nanoid()`) the call would generate. -/
structure EnqueueCall where
  newId : String
  kind : String
  sourceId : String
  taskId : String
  agentRef : String
  createdAt : Nat

/-- Apply a sequence of `enqueueMention` calls to a store. -/
def applyEnqueues (q : List QueueItem) (calls : List EnqueueCall) : List QueueItem :=
  calls.foldl
    (fun acc c => enqueueMention c.newId acc c.kind c.sourceId c.taskId c.agentRef c.createdAt) q

/-- Two rows agree on the deduplication tuple `(kind, sourceId, agentId)`. -/
def SameTuple (a b : QueueItem) : Prop :=
  a.kind = b.kind ∧ a.sourceId = b.sourceId ∧ a.agentId = b.agentId

/-- No two rows of the store agree on `(kind, sourceId, agentId)`. -/
def TupleUnique (q : List QueueItem) : Prop :=
  q.Pairwise (fun a b => ¬ SameTuple a b)

/-- Number of rows matching a given `(kind, sourceId, agentId)` tuple. -/
def countTuple (q : List QueueItem) (kind sourceId agentId : String) : Nat :=
  (q.filter (fun it => sameTupleB it kind sourceId agentId)).length

theorem sameTupleB_iff (it : QueueItem) (kind sourceId agentId : String) :
    sameTupleB it kind sourceId agentId = true ↔
      it.kind = kind ∧ it.sourceId = sourceId ∧ it.agentId = agentId := by
  simp [sameTupleB, and_assoc]

theorem countTuple_eq_zero (q : List QueueItem) (kind sourceId agentId : String) :
    countTuple q kind sourceId agentId = 0 ↔
      ∀ it ∈ q, ¬ sameTupleB it kind sourceId agentId = true := by
  simp [countTuple, List.length_eq_zero, List.filter_eq_nil_iff]

theorem countTuple_append (q1 q2 : List QueueItem) (kind sourceId agentId : String) :
    countTuple (q1 ++ q2) kind sourceId agentId =
      countTuple q1 kind sourceId agentId + countTuple q2 kind sourceId agentId := by
  simp [countTuple, List.filter_append]

theorem enqueue_skip (newId : String) (q : List QueueItem)
    (kind sourceId taskId agentRef : String) (createdAt : Nat) (norm : String)
    (hn : normalizeMentionAgentId agentRef = some norm)
    (hc : 0 < countTuple q kind sourceId norm) :
    enqueueMention newId q kind sourceId taskId agentRef createdAt = q := by
  unfold enqueueMention
  rw [hn]
  obtain ⟨it, hit, hmatch⟩ : ∃ it ∈ q, sameTupleB it kind sourceId norm = true := by
    by_contra h
    push_neg at h
    rw [← countTuple_eq_zero] at h
    omega
  have : q.any (fun it => it.id == newId || sameTupleB it kind sourceId norm) = true := by
    rw [List.any_eq_true]
    exact ⟨it, hit, by simp [hmatch]⟩
  simp [this]

theorem enqueue_insert (newId : String) (q : List QueueItem)
    (kind sourceId taskId agentRef : String) (createdAt : Nat) (norm : String)
    (hn : normalizeMentionAgentId agentRef = some norm)
    (hid : ∀ it ∈ q, it.id ≠ newId)
    (hc : countTuple q kind sourceId norm = 0) :
    enqueueMention newId q kind sourceId taskId agentRef createdAt =
      q ++ [newQueueItem newId kind sourceId taskId norm createdAt] := by
  unfold enqueueMention
  rw [hn]
  have : q.any (fun it => it.id == newId || sameTupleB it kind sourceId norm) = false := by
    rw [List.any_eq_false]
    intro it hit
    have h1 : ¬ sameTupleB it kind sourceId norm = true := (countTuple_eq_zero ..).mp hc it hit
    simp only [Bool.or_eq_true, beq_iff_eq, not_or]
    exact ⟨hid it hit, h1⟩
  simp [this]

theorem countTuple_single_self (newId kind sourceId taskId agentId : String) (createdAt : Nat) :
    countTuple [newQueueItem newId kind sourceId taskId agentId createdAt] kind sourceId agentId
      = 1 := by
  simp [countTuple, sameTupleB, newQueueItem]

theorem countTuple_single_other (newId kind sourceId taskId agentId other : String)
    (createdAt : Nat) (h : agentId ≠ other) :
    countTuple [newQueueItem newId kind sourceId taskId agentId createdAt] kind sourceId other
      = 0 := by
  simp [countTuple, sameTupleB, newQueueItem, h]

theorem enqueue_tupleUnique (newId : String) (q : List QueueItem)
    (kind sourceId taskId agentRef : String) (createdAt : Nat) (h : TupleUnique q) :
    TupleUnique (enqueueMention newId q kind sourceId taskId agentRef createdAt) := by
  cases hn : normalizeMentionAgentId agentRef with
  | none => simpa [enqueueMention, hn] using h
  | some norm =>
      simp only [enqueueMention, hn]
      split
      · exact h
      next hany =>
        rw [Bool.not_eq_true, List.any_eq_false] at hany
        refine List.pairwise_append.mpr ⟨h, List.pairwise_singleton .., ?_⟩
        intro x hx y hy
        simp only [List.mem_singleton] at hy
        subst hy
        intro hst
        obtain ⟨h1, h2, h3⟩ := hst
        have := hany x hx
        simp only [newQueueItem] at h1 h2 h3
        simp [sameTupleB, h1, h2, h3] at this

theorem applyEnqueues_tupleUnique (q : List QueueItem) (calls : List EnqueueCall)
    (h : TupleUnique q) : TupleUnique (applyEnqueues q calls) := by
  induction calls generalizing q with
  | nil => exact h
  | cons c cs ih => exact ih _ (enqueue_tupleUnique c.newId q c.kind c.sourceId c.taskId c.agentRef c.createdAt h)

/-- C2: the `(kind, sourceId, agentId)` tuple is unique in the mention-queue
store under any sequence of enqueues; two enqueues with identical arguments
(and fresh random row ids) leave exactly one matching row; and the same
mention directed at two distinct (normalized) agents produces one row for
each agent. -/
theorem mention_queue_unique :
    (∀ (q : List QueueItem) (calls : List EnqueueCall),
        TupleUnique q → TupleUnique (applyEnqueues q calls))
    ∧ (∀ (q : List QueueItem) (c : EnqueueCall) (id2 norm : String),
        normalizeMentionAgentId c.agentRef = some norm →
        countTuple q c.kind c.sourceId norm = 0 →
        (∀ it ∈ q, it.id ≠ c.newId) →
        countTuple (applyEnqueues q [c, { c with newId := id2 }]) c.kind c.sourceId norm = 1)
    ∧ (∀ (q : List QueueItem) (kind sourceId taskId a1 a2 id1 id2 n1 n2 : String)
        (c1 c2 : Nat),
        normalizeMentionAgentId a1 = some n1 →
        normalizeMentionAgentId a2 = some n2 →
        n1 ≠ n2 →
        countTuple q kind sourceId n1 = 0 →
        countTuple q kind sourceId n2 = 0 →
        (∀ it ∈ q, it.id ≠ id1 ∧ it.id ≠ id2) →
        id1 ≠ id2 →
        countTuple (enqueueMention id2 (enqueueMention id1 q kind sourceId taskId a1 c1)
            kind sourceId taskId a2 c2) kind sourceId n1 = 1
        ∧ countTuple (enqueueMention id2 (enqueueMention id1 q kind sourceId taskId a1 c1)
            kind sourceId taskId a2 c2) kind sourceId n2 = 1) := by
  refine ⟨applyEnqueues_tupleUnique, ?_, ?_⟩
  · intro q c id2 norm hn hc hid
    have h1 : enqueueMention c.newId q c.kind c.sourceId c.taskId c.agentRef c.createdAt =
        q ++ [newQueueItem c.newId c.kind c.sourceId c.taskId norm c.createdAt] :=
      enqueue_insert _ _ _ _ _ _ _ _ hn hid hc
    have hcount1 : countTuple (q ++ [newQueueItem c.newId c.kind c.sourceId c.taskId norm
        c.createdAt]) c.kind c.sourceId norm = 1 := by
      rw [countTuple_append, hc, countTuple_single_self]
    have h2 : enqueueMention id2 (q ++ [newQueueItem c.newId c.kind c.sourceId c.taskId norm
        c.createdAt]) c.kind c.sourceId c.taskId c.agentRef c.createdAt =
        q ++ [newQueueItem c.newId c.kind c.sourceId c.taskId norm c.createdAt] :=
      enqueue_skip _ _ _ _ _ _ _ _ hn (by omega)
    simp only [applyEnqueues, List.foldl_cons, List.foldl_nil, h1, h2]
    exact hcount1
  · intro q kind sourceId taskId a1 a2 id1 id2 n1 n2 c1 c2 hn1 hn2 hne hc1 hc2 hid hid12
    have h1 : enqueueMention id1 q kind sourceId taskId a1 c1 =
        q ++ [newQueueItem id1 kind sourceId taskId n1 c1] :=
      enqueue_insert _ _ _ _ _ _ _ _ hn1 (fun it hit => (hid it hit).1) hc1
    have hq1c : countTuple (q ++ [newQueueItem id1 kind sourceId taskId n1 c1])
        kind sourceId n2 = 0 := by
      rw [countTuple_append, hc2, countTuple_single_other _ _ _ _ _ _ _ hne]
    have h2 : enqueueMention id2 (q ++ [newQueueItem id1 kind sourceId taskId n1 c1])
        kind sourceId taskId a2 c2 =
        (q ++ [newQueueItem id1 kind sourceId taskId n1 c1])
          ++ [newQueueItem id2 kind sourceId taskId n2 c2] := by
      refine enqueue_insert _ _ _ _ _ _ _ _ hn2 ?_ hq1c
      intro it hit
      rcases List.mem_append.mp hit with h | h
      · exact (hid it h).2
      · simp only [List.mem_singleton] at h
        subst h
        simpa [newQueueItem] using hid12
    rw [h1, h2]
    constructor
    · rw [countTuple_append, countTuple_append, hc1, countTuple_single_self,
        countTuple_single_other _ _ _ _ _ _ _ (Ne.symm hne)]
    · rw [countTuple_append, countTuple_append, hc2,
        countTuple_single_other _ _ _ _ _ _ _ hne, countTuple_single_self]

/-- Witness for `mention_queue_unique`: a double enqueue of the same comment
mention for `apollo` stores one row, and the same mention for `apollo` and
`ares` stores one row each. -/
theorem mention_queue_unique_witness :
    TupleUnique (applyEnqueues []
        [⟨"r1", "task_comment", "s1", "t1", "apollo", 5⟩,
         ⟨"r2", "task_comment", "s1", "t1", "apollo", 5⟩])
    ∧ countTuple (applyEnqueues []
        [⟨"r1", "task_comment", "s1", "t1", "apollo", 5⟩,
         { (⟨"r1", "task_comment", "s1", "t1", "apollo", 5⟩ : EnqueueCall) with newId := "r2" }])
        "task_comment" "s1" "apollo" = 1
    ∧ countTuple (enqueueMention "x2" (enqueueMention "x1" [] "task_comment" "s1" "t1" "apollo" 5)
        "task_comment" "s1" "t1" "ares" 5) "task_comment" "s1" "apollo" = 1 := by
  refine ⟨?_, ?_, ?_⟩
  · exact mention_queue_unique.1 _ _ (by simp [TupleUnique])
  · exact mention_queue_unique.2.1 [] ⟨"r1", "task_comment", "s1", "t1", "apollo", 5⟩ "r2"
      "apollo" rfl rfl (by simp)
  · exact (mention_queue_unique.2.2 [] "task_comment" "s1" "t1" "apollo" "ares" "x1" "x2"
      "apollo" "ares" 5 5 rfl rfl (by decide) rfl rfl (by simp) (by decide)).1

theorem normalize_mem_allowed (s x : String) (h : normalizeMentionAgentId s = some x) :
    x ∈ allowedAgentStrings := by
  simp only [normalizeMentionAgentId] at h
  split_ifs at h with h1 h2 h3
  · rw [Option.some.injEq] at h
    subst h
    decide
  · rw [Option.some.injEq] at h
    subst h
    simp only [allowedAgents, List.mem_cons, List.not_mem_nil, or_false] at h3
    rcases h3 with h3 | h3 | h3 | h3 | h3 | h3 <;> rw [h3] <;> decide

theorem enqueue_agents_allowed (newId : String) (q : List QueueItem)
    (kind sourceId taskId agentRef : String) (createdAt : Nat)
    (h : ∀ it ∈ q, it.agentId ∈ allowedAgentStrings) :
    ∀ it ∈ enqueueMention newId q kind sourceId taskId agentRef createdAt,
      it.agentId ∈ allowedAgentStrings := by
  cases hn : normalizeMentionAgentId agentRef with
  | none => simpa [enqueueMention, hn] using h
  | some norm =>
      simp only [enqueueMention, hn]
      split
      · exact h
      · intro it hit
        rcases List.mem_append.mp hit with hq | hnew
        · exact h it hq
        · simp only [List.mem_singleton] at hnew
          subst hnew
          simpa [newQueueItem] using normalize_mem_allowed _ _ hn

/-- C9: normalization depends only on the trimmed, lowercased reference (so it
is case-insensitive and whitespace-trimming); any case variant of `jarvis`
routes to `zeus`; every agent id stored by any sequence of enqueues is one of
the six known ids; and two references normalizing to the same agent produce a
single stored row. -/
theorem mention_normalization :
    (∀ s t : String,
        (jsTrim s.data).map Char.toLower = (jsTrim t.data).map Char.toLower →
        normalizeMentionAgentId s = normalizeMentionAgentId t)
    ∧ (∀ s : String, (jsTrim s.data).map Char.toLower = "jarvis".data →
        normalizeMentionAgentId s = some "zeus")
    ∧ (∀ (q : List QueueItem) (calls : List EnqueueCall),
        (∀ it ∈ q, it.agentId ∈ allowedAgentStrings) →
        ∀ it ∈ applyEnqueues q calls, it.agentId ∈ allowedAgentStrings)
    ∧ (∀ (q : List QueueItem) (kind sourceId taskId a1 a2 id1 id2 norm : String) (c1 c2 : Nat),
        normalizeMentionAgentId a1 = some norm →
        normalizeMentionAgentId a2 = some norm →
        countTuple q kind sourceId norm = 0 →
        (∀ it ∈ q, it.id ≠ id1) →
        countTuple (enqueueMention id2 (enqueueMention id1 q kind sourceId taskId a1 c1)
          kind sourceId taskId a2 c2) kind sourceId norm = 1) := by
  refine ⟨?_, ?_, ?_, ?_⟩
  · intro s t h
    unfold normalizeMentionAgentId
    rw [h]
  · intro s h
    unfold normalizeMentionAgentId
    rw [h]
    simp
  · intro q calls h
    induction calls generalizing q with
    | nil => exact h
    | cons c cs ih =>
        exact ih _ (enqueue_agents_allowed c.newId q c.kind c.sourceId c.taskId c.agentRef
          c.createdAt h)
  · intro q kind sourceId taskId a1 a2 id1 id2 norm c1 c2 hn1 hn2 hc hid
    have h1 : enqueueMention id1 q kind sourceId taskId a1 c1 =
        q ++ [newQueueItem id1 kind sourceId taskId norm c1] :=
      enqueue_insert _ _ _ _ _ _ _ _ hn1 hid hc
    have hcount1 : countTuple (q ++ [newQueueItem id1 kind sourceId taskId norm c1])
        kind sourceId norm = 1 := by
      rw [countTuple_append, hc, countTuple_single_self]
    have h2 : enqueueMention id2 (q ++ [newQueueItem id1 kind sourceId taskId norm c1])
        kind sourceId taskId a2 c2 = q ++ [newQueueItem id1 kind sourceId taskId norm c1] :=
      enqueue_skip _ _ _ _ _ _ _ _ hn2 (by omega)
    rw [h1, h2, hcount1]

/-- Witness for `mention_normalization`: `" JARvis "` and `"jarvis"` normalize
alike to `zeus`; enqueues keep agent ids within the known six; and the case
variants `"Apollo"` and `" APOLLO "` deduplicate to a single row. -/
theorem mention_normalization_witness :
    normalizeMentionAgentId " JARvis " = normalizeMentionAgentId "jarvis"
    ∧ normalizeMentionAgentId " JARvis " = some "zeus"
    ∧ (∀ it ∈ applyEnqueues [] [⟨"r1", "task_comment", "s1", "t1", " JARvis ", 5⟩],
        it.agentId ∈ allowedAgentStrings)
    ∧ countTuple (enqueueMention "x2" (enqueueMention "x1" [] "task_comment" "s1" "t1" "Apollo" 5)
        "task_comment" "s1" "t1" " APOLLO " 5) "task_comment" "s1" "apollo" = 1 := by
  refine ⟨?_, ?_, ?_, ?_⟩
  · exact mention_normalization.1 " JARvis " "jarvis" (by decide)
  · exact mention_normalization.2.1 " JARvis " (by decide)
  · exact mention_normalization.2.2.1 [] _ (by simp)
  · exact mention_normalization.2.2.2 [] "task_comment" "s1" "t1" "Apollo" " APOLLO "
      "x1" "x2" "apollo" 5 5 (by decide) (by decide) rfl (by simp)

/-! ## Stuck-item reaper and status transitions -/

/-- Effective processing start used by the reaper:
`COALESCE(processing_started_at, created_at)`. -/
def effStart (it : QueueItem) : Nat :=
  it.processingStartedAt.getD it.createdAt

/-- Sentinel appended to `last_error` by the reaper. -/
def stuckSentinel : String := "\nprocessing_ttl"

/-- A row the reaper considers stuck: `status = 'processing'` with effective
start older than `now - ttl`. -/
def isStuck (now ttl : Nat) (it : QueueItem) : Bool :=
  it.status == "processing" && decide (effStart it + ttl < now)

/-- The update the reaper applies to a stuck row: status `error`, sentinel
appended to `last_error`, `tries` incremented. -/
def reapItem (it : QueueItem) : QueueItem :=
  { it with status := "error"
            lastError := some ((it.lastError.getD "") ++ stuckSentinel)
            tries := it.tries + 1 }

/-- Insertion step of the sort realizing `ORDER BY COALESCE(...) ASC`. -/
def insertByStart (it : QueueItem) : List QueueItem → List QueueItem
  | [] => [it]
  | jt :: rest =>
      if effStart it ≤ effStart jt then it :: jt :: rest else jt :: insertByStart it rest

/-- Sort by effective processing start, ascending. -/
def sortByStart : List QueueItem → List QueueItem
  | [] => []
  | it :: rest => insertByStart it (sortByStart rest)

/-- The `reapStuckProcessingQueue` routine: select the (at most 25) oldest
stuck rows, then flip each selected row to `error` with the sentinel appended
and `tries` incremented. -/
def reapStuck (now ttl : Nat) (q : List QueueItem) : List QueueItem :=
  let ids := ((sortByStart (q.filter (isStuck now ttl))).take 25).map (fun it => it.id)
  q.map (fun it => if ids.contains it.id then reapItem it else it)

/-- The `markQueueStatus` routine: update the row with the given id, stamping
`processing_started_at` when entering `processing` and overriding `tries` and
`last_error` only when explicitly supplied. -/
def markQueueStatus (now : Nat) (q : List QueueItem) (id status : String)
    (triesOpt : Option Nat) (lastErrorOpt : Option String) : List QueueItem :=
  q.map (fun it =>
    if it.id == id then
      { it with status := status
                processingStartedAt :=
                  if status == "processing" then some now else it.processingStartedAt
                tries := triesOpt.getD it.tries
                lastError :=
                  match lastErrorOpt with
                  | some m => some m
                  | none => it.lastError }
    else it)

theorem insertByStart_perm (it : QueueItem) (l : List QueueItem) :
    (insertByStart it l).Perm (it :: l) := by
  induction l with
  | nil => exact List.Perm.refl _
  | cons jt rest ih =>
      rw [insertByStart]
      split
      · exact List.Perm.refl _
      · exact (ih.cons jt).trans (List.Perm.swap it jt rest)

theorem sortByStart_perm (l : List QueueItem) : (sortByStart l).Perm l := by
  induction l with
  | nil => exact List.Perm.refl _
  | cons it rest ih => exact (insertByStart_perm it (sortByStart rest)).trans (ih.cons it)

/-- C5 (amended): one run of the reaper transitions every stuck row to
`error`, appends the sentinel and increments `tries` exactly once, leaving
other rows untouched — provided at most 25 rows are stuck (the source query
carries `LIMIT 25`). -/
theorem reapStuck_reaps_all (now ttl : Nat) (q : List QueueItem)
    (hnodup : (q.map (fun it => it.id)).Nodup)
    (hlen : (q.filter (isStuck now ttl)).length ≤ 25) :
    reapStuck now ttl q = q.map (fun it => if isStuck now ttl it then reapItem it else it) := by
  unfold reapStuck
  have hlen2 : (sortByStart (q.filter (isStuck now ttl))).length ≤ 25 := by
    rw [(sortByStart_perm _).length_eq]
    exact hlen
  rw [List.take_of_length_le hlen2]
  apply List.map_congr_left
  intro it hit
  by_cases hstuck : isStuck now ttl it = true
  · have hm : it.id ∈ (sortByStart (q.filter (isStuck now ttl))).map (fun it => it.id) := by
      exact List.mem_map_of_mem _
        (((sortByStart_perm _).mem_iff).mpr (List.mem_filter.mpr ⟨hit, hstuck⟩))
    simp [hstuck, List.contains, List.elem_iff, hm]
  · have hnm : it.id ∉ (sortByStart (q.filter (isStuck now ttl))).map (fun it => it.id) := by
      intro hmem
      obtain ⟨jt, hjt, hjid⟩ := List.mem_map.mp hmem
      have hjt2 := ((sortByStart_perm _).mem_iff).mp hjt
      have hjq := (List.mem_filter.mp hjt2).1
      have hjstuck := (List.mem_filter.mp hjt2).2
      have : jt = it := List.inj_on_of_nodup_map hnodup hjq hit hjid
      rw [this] at hjstuck
      exact hstuck hjstuck
    simp [hstuck, List.contains, List.elem_iff, hnm]

/-- Witness store for `reapStuck_reaps_all`: one long-stuck processing row and
one pending row. -/
def reapSmallStore : List QueueItem :=
  [{ id := "a", kind := "task_comment", sourceId := "s1", taskId := "t1", agentId := "zeus",
     createdAt := 0, status := "processing", processingStartedAt := some 1000, tries := 3,
     lastError := some "boom" },
   { id := "b", kind := "task_comment", sourceId := "s2", taskId := "t2", agentId := "ares",
     createdAt := 500, status := "pending", processingStartedAt := none, tries := 0,
     lastError := none }]

/-- Witness for `reapStuck_reaps_all` on `reapSmallStore`. -/
theorem reapStuck_reaps_all_witness :
    reapStuck 660000 600000 reapSmallStore =
      reapSmallStore.map (fun it => if isStuck 660000 600000 it then reapItem it else it) :=
  reapStuck_reaps_all 660000 600000 reapSmallStore (by decide) (by decide)

/-- A store of 26 equally old stuck processing rows. -/
def reapDemoStore : List QueueItem :=
  (List.range 26).map (fun i =>
    { id := toString i, kind := "task_comment", sourceId := toString i, taskId := "t",
      agentId := "zeus", createdAt := 0, status := "processing", processingStartedAt := some 0,
      tries := 0, lastError := none })

/-- Counterexample to C5 as stated: with 26 stuck rows, a single reaper run
leaves one row still in `processing` (the source query reaps at most 25 rows
per run), although all 26 satisfy the staleness condition. -/
theorem reapStuck_limit_counterexample :
    (reapStuck (11 * 60 * 1000) (10 * 60 * 1000) reapDemoStore).countP
        (fun it => it.status == "processing") = 1
      ∧ reapDemoStore.countP (fun it => isStuck (11 * 60 * 1000) (10 * 60 * 1000) it) = 26 := by
  decide

/-- C6 (amended): a fresh mention item (`tries = 0`) that is claimed
(`markProcessing`, which already increments `tries` to 1) and never resolved
is flipped to `error` by a reaper run after the TTL, with `tries = 2`: once
for the claim and once for the reap. -/
theorem mention_ttl_reap (it : QueueItem) (t0 now ttl : Nat)
    (hfresh : it.tries = 0) (hlate : t0 + ttl < now) :
    reapStuck now ttl (markQueueStatus t0 [it] it.id "processing" (some (it.tries + 1)) none) =
      [{ it with status := "error", processingStartedAt := some t0, tries := 2,
                 lastError := some ((it.lastError.getD "") ++ stuckSentinel) }] := by
  rw [hfresh]
  simp [markQueueStatus, reapStuck, sortByStart, insertByStart, isStuck, effStart, reapItem,
    hlate]

/-- Witness for `mention_ttl_reap`: a concrete fresh comment mention claimed at
`t = 0` and reaped 11 minutes later. -/
theorem mention_ttl_reap_witness :
    reapStuck 660000 600000
        (markQueueStatus 0
          [{ id := "m1", kind := "task_comment", sourceId := "s1", taskId := "t1",
             agentId := "apollo", createdAt := 0, status := "pending",
             processingStartedAt := none, tries := 0, lastError := none }] "m1" "processing"
          (some (0 + 1)) none) =
      [{ id := "m1", kind := "task_comment", sourceId := "s1", taskId := "t1",
         agentId := "apollo", createdAt := 0, status := "error",
         processingStartedAt := some 0, tries := 2, lastError := some ("" ++ stuckSentinel) }] :=
  mention_ttl_reap
    { id := "m1", kind := "task_comment", sourceId := "s1", taskId := "t1",
      agentId := "apollo", createdAt := 0, status := "pending",
      processingStartedAt := none, tries := 0, lastError := none } 0 660000 600000 rfl
    (by decide)

/-- The fresh pending row of the C6 scenario. -/
def c6Item : QueueItem :=
  { id := "m1", kind := "task_comment", sourceId := "s1", taskId := "t1", agentId := "apollo",
    createdAt := 0, status := "pending", processingStartedAt := none, tries := 0,
    lastError := none }

/-- Counterexample to C6 as stated: after claim (`markProcessing` with
`tries 0+1`) and a reaper run past the TTL, the row carries `tries = 2`, not
`tries = 1` — both the claim step and the reaper increment `tries`. -/
theorem mention_ttl_counterexample :
    ¬ ((reapStuck 660000 600000 (markQueueStatus 0 [c6Item] "m1" "processing" (some 1) none)).map
        (fun it => (it.status, it.tries)) = [("error", 1)])
      ∧ (reapStuck 660000 600000 (markQueueStatus 0 [c6Item] "m1" "processing" (some 1)
          none)).map (fun it => (it.status, it.tries)) = [("error", 2)] := by
  decide

/-! ## Admission control and the per-tick priority dispatcher -/

/-- The ordered candidate actions of the dispatcher, in source order. -/
inductive Candidate where
  | zeusAssign
  | tokenAlert
  | mentionQueue (agentId : String)
  | assignedFirstTouch (agentId taskId : String)
  | logsError
  | weeklyReport (wk : String)
  | hermesHr
  | hermesOutcome
  | inprogStale (agentId taskId : String)
  | hermesWatch
  | emailUrgent
  | githubCheck
  | specialistWork
  | filesNew
  | calendarCheck
  | emailBatch
deriving Repr, DecidableEq

/-- The event-type string each candidate passes to `shouldSpawnAgent`. -/
def Candidate.key : Candidate → String
  | .zeusAssign => "zeus-assign"
  | .tokenAlert => "token-alert"
  | .mentionQueue a => "mention-queue:" ++ a
  | .assignedFirstTouch a t => "assigned-first-touch:" ++ a ++ ":" ++ t
  | .logsError => "logs-error"
  | .weeklyReport w => "hermes-weekly:" ++ w
  | .hermesHr => "hermes-hr"
  | .hermesOutcome => "hermes-outcome"
  | .inprogStale a t => "inprog-stale:" ++ a ++ ":" ++ t
  | .hermesWatch => "hermes-watch"
  | .emailUrgent => "email-urgent"
  | .githubCheck => "github-check"
  | .specialistWork => "specialist-work"
  | .filesNew => "files-new"
  | .calendarCheck => "calendar-check"
  | .emailBatch => "email-batch"

/-- One call of the opaque Agent Executor (`openclawAgent`), tagged with the
persona invoked and the candidate that triggered it. -/
structure Invocation where
  agentId : String
  candidate : Candidate
deriving Repr, DecidableEq

/-- Outcome of the tick's (at most one) executor call: a reply string, or a
thrown error. -/
inductive ExecOutcome where
  | ok (reply : String)
  | err (msg : String)
deriving Repr, DecidableEq

/-- Environment-derived rate limits (`WORKLOOP_MAX_RUNS_PER_HOUR`,
`WORKLOOP_MIN_INTERVAL_MS`). -/
structure Config where
  maxRunsPerHour : Nat
  minIntervalMs : Nat

/-- A row of `assignedReady` or `inProgressStale`: a task joined with its
assignee. -/
structure AssignedPick where
  taskId : String
  title : String
  agentId : String
deriving Repr, DecidableEq

/-- A fresh unread comment mention, as returned by `scanTaskMentions`,
together with the random row id its enqueue would use. -/
structure TaskMentionRow where
  rowId : String
  taskId : String
  agentId : String
  createdAt : Nat
  queueId : String
deriving Repr, DecidableEq

/-- One agent reference extracted from a new task description, with the
random row id its enqueue would use. -/
structure NewTaskMentionRef where
  agentRef : String
  queueId : String
deriving Repr, DecidableEq

/-- A recently created task with description mentions, as returned by
`scanNewTasksWithMentions`. -/
structure NewTaskRow where
  taskId : String
  createdAt : Nat
  mentions : List NewTaskMentionRef
deriving Repr, DecidableEq

/-- The scan signals one tick observes (all scanners fail soft, so each is a
plain value). -/
structure Scans where
  unassigned : Nat
  tokensAlert : Bool
  assignedReady : List AssignedPick
  logsErrors : Nat
  perfFlags : Nat
  needsOutcome : Nat
  inProgressStale : List AssignedPick
  stuck : Nat
  emailsUrgent : Nat
  emailsUnread : Nat
  ghNotifications : Nat
  ghMentions : Nat
  overdue : Nat
  filesNew : Nat
  calUpcoming : Nat
  taskMentions : List TaskMentionRow
  newTaskMentions : List NewTaskRow

/-- Everything external one tick consumes: the clock, local calendar fields,
the quiet-mode flag, the scan results, the executor's behaviour, the
row-lookup results for the claimed mention, and the random overdue-assignee
pick. -/
structure TickEnv where
  now : Nat
  quiet : Bool
  dow : String
  hour : Nat
  minute : Nat
  wk : String
  scans : Scans
  execOutcome : ExecOutcome
  mentionRowFound : Bool
  taskRowFound : Bool
  overduePick : Option String

/-- Result of one tick: the persisted state, the mention-queue store, and the
executor invocations performed. -/
structure TickResult where
  st : WorkState
  queue : List QueueItem
  invocations : List Invocation

/-- The `shouldSpawnAgent` admission filter, in source order: per-event
backoff, quiet mode, hourly-window roll and ceiling, minimum interval, then
the priority-tiered sub-ceiling.  Returns the decision together with the
(possibly window-rolled) state. -/
def shouldSpawnAgent (cfg : Config) (now : Nat) (quiet : Bool) (st : WorkState)
    (eventType : String) (priority : Nat) : Bool × WorkState :=
  match backoffInfo now st eventType with
  | some _ => (false, st)
  | none =>
      if quiet then (false, st)
      else
        let st1 := if st.hourStartedAt + 3600000 < now
          then { st with hourStartedAt := now, agentRunsThisHour := 0 } else st
        if cfg.maxRunsPerHour ≤ st1.agentRunsThisHour then (false, st1)
        else if now - st1.lastAgentRunAt < cfg.minIntervalMs then (false, st1)
        else
          (priority == 1
            || (priority == 2 && st1.agentRunsThisHour < 6)
            || (priority == 3 && st1.agentRunsThisHour < 4)
            || (priority == 4 && st1.agentRunsThisHour < 2), st1)

/-- Bookkeeping every successful spawn performs:
`st.lastAgentRunAt = now; st.agentRunsThisHour++`. -/
def noteRun (now : Nat) (st : WorkState) : WorkState :=
  { st with lastAgentRunAt := now, agentRunsThisHour := st.agentRunsThisHour + 1 }

/-- A guarded admission check `signal && shouldSpawnAgent(st, key, priority)`:
the filter runs (and may roll the hourly window) only when the signal is
present. -/
def gate (cond : Prop) [Decidable cond] (cfg : Config) (env : TickEnv) (st : WorkState)
    (c : Candidate) (priority : Nat) : Bool × WorkState :=
  if cond then shouldSpawnAgent cfg env.now env.quiet st c.key priority else (false, st)

/-- A spawn with its own try/catch and no backoff bookkeeping (Zeus assign,
Hermes watch/logs/email/HR/outcome/weekly, Ares GitHub, Apollo files,
Prometheus calendar): counters update on success, errors are swallowed. -/
def simpleSpawn (env : TickEnv) (st : WorkState) (q : List QueueItem)
    (agentId : String) (c : Candidate) : TickResult :=
  match env.execOutcome with
  | .ok _ => { st := noteRun env.now st, queue := q, invocations := [⟨agentId, c⟩] }
  | .err _ => { st := st, queue := q, invocations := [⟨agentId, c⟩] }

/-- Maximal word-character runs of a character list (word characters are
alphanumerics and underscore, as in the regex `\b`). -/
def splitWordsAux : List Char → List Char → List (List Char)
  | [], cur => [cur.reverse]
  | ch :: rest, cur =>
      if ch.isAlphanum || ch = '_' then splitWordsAux rest (ch :: cur)
      else cur.reverse :: splitWordsAux rest []

/-- The `/\bBLOCKED\b/i` reply test: some maximal word run of the reply equals
`blocked` case-insensitively. -/
def replyBlocked (reply : String) : Bool :=
  (splitWordsAux reply.data []).any (fun w => w.map Char.toLower = "blocked".data)

/-- The `spawnSpecialistToWork` spawn: on success, a BLOCKED reply records a
failure against the event key and any other reply clears it; on a thrown
error the key records a `spawn_failed` failure and counters stay unchanged.
`eventKey = none` models the overdue-work call site that passes no key. -/
def specialistSpawn (env : TickEnv) (st : WorkState) (q : List QueueItem)
    (agentId : String) (eventKey : Option String) (c : Candidate) : TickResult :=
  match env.execOutcome with
  | .ok reply =>
      let st1 :=
        match eventKey with
        | some key =>
            if replyBlocked reply then setBackoff env.now st key "agent_blocked"
            else clearBackoff st key
        | none => st
      { st := noteRun env.now st1, queue := q, invocations := [⟨agentId, c⟩] }
  | .err _ =>
      let st1 :=
        match eventKey with
        | some key => setBackoff env.now st key "spawn_failed"
        | none => st
      { st := st1, queue := q, invocations := [⟨agentId, c⟩] }

/-- The `nextQueuedMention` query: the oldest row (by `created_at`) whose
status is `pending` or `error`. -/
def nextQueuedMention (q : List QueueItem) : Option QueueItem :=
  (q.filter (fun it => it.status == "pending" || it.status == "error")).foldl
    (fun acc it =>
      match acc with
      | none => some it
      | some jt => if it.createdAt < jt.createdAt then some it else acc) none

/-- The mention-queue processing branch of the tick: mark processing (with
`tries+1`), look up the source row, invoke the mentioned agent if the row is
found, then mark done — or mark error with the thrown message if the executor
fails.  No backoff bookkeeping happens on this path. -/
def mentionSpawn (env : TickEnv) (st : WorkState) (q : List QueueItem)
    (qi : QueueItem) : TickResult :=
  let q1 := markQueueStatus env.now q qi.id "processing" (some (qi.tries + 1)) none
  let invokes : Bool :=
    if qi.kind == "task_comment" then env.mentionRowFound
    else if qi.kind == "task_description" then env.taskRowFound
    else false
  if invokes then
    match env.execOutcome with
    | .ok _ =>
        { st := noteRun env.now st
          queue := markQueueStatus env.now q1 qi.id "done" none none
          invocations := [⟨qi.agentId, .mentionQueue qi.agentId⟩] }
    | .err m =>
        { st := st
          queue := markQueueStatus env.now q1 qi.id "error" none (some m)
          invocations := [⟨qi.agentId, .mentionQueue qi.agentId⟩] }
  else
    { st := st, queue := markQueueStatus env.now q1 qi.id "done" none none, invocations := [] }

/-- The weekly-report guard: Monday, 09:00-09:09 local, and the persisted
marker differs from the current ISO-week key. -/
def shouldWeekly (env : TickEnv) (st : WorkState) : Bool :=
  env.dow == "Mon" && env.hour == 9 && env.minute < 10 && st.lastWeeklyWeek ≠ some env.wk

/-- Fall-through end of the cascade: no admissible candidate, no invocation. -/
def dispatchNone (st : WorkState) (q : List QueueItem) : TickResult :=
  { st := st, queue := q, invocations := [] }

/-- PRIORITY 4: bulk unread email. -/
def dispatchEmailBatch (cfg : Config) (env : TickEnv) (st : WorkState)
    (q : List QueueItem) : TickResult :=
  let r := gate (5 < env.scans.emailsUnread) cfg env st .emailBatch 4
  if r.1 then simpleSpawn env r.2 q "hermes" .emailBatch else dispatchNone r.2 q

/-- PRIORITY 3: upcoming calendar events. -/
def dispatchCalendar (cfg : Config) (env : TickEnv) (st : WorkState)
    (q : List QueueItem) : TickResult :=
  let r := gate (0 < env.scans.calUpcoming) cfg env st .calendarCheck 3
  if r.1 then simpleSpawn env r.2 q "prometheus" .calendarCheck
  else dispatchEmailBatch cfg env r.2 q

/-- PRIORITY 3: new files. -/
def dispatchFiles (cfg : Config) (env : TickEnv) (st : WorkState)
    (q : List QueueItem) : TickResult :=
  let r := gate (0 < env.scans.filesNew) cfg env st .filesNew 3
  if r.1 then simpleSpawn env r.2 q "apollo" .filesNew
  else dispatchCalendar cfg env r.2 q

/-- PRIORITY 3: overdue tasks; a random assignee with overdue work is nudged,
with no backoff event key. -/
def dispatchOverdue (cfg : Config) (env : TickEnv) (st : WorkState)
    (q : List QueueItem) : TickResult :=
  let pick := if 0 < env.scans.overdue then env.overduePick else none
  match pick with
  | some a =>
      let r := shouldSpawnAgent cfg env.now env.quiet st Candidate.specialistWork.key 3
      if r.1 then specialistSpawn env r.2 q a none .specialistWork
      else dispatchFiles cfg env r.2 q
  | none => dispatchFiles cfg env st q

/-- PRIORITY 2: GitHub notifications or mentions. -/
def dispatchGithub (cfg : Config) (env : TickEnv) (st : WorkState)
    (q : List QueueItem) : TickResult :=
  let r := gate (0 < env.scans.ghNotifications ∨ 0 < env.scans.ghMentions) cfg env st
    .githubCheck 2
  if r.1 then simpleSpawn env r.2 q "ares" .githubCheck
  else dispatchOverdue cfg env r.2 q

/-- PRIORITY 2: urgent email. -/
def dispatchEmailUrgent (cfg : Config) (env : TickEnv) (st : WorkState)
    (q : List QueueItem) : TickResult :=
  let r := gate (0 < env.scans.emailsUrgent) cfg env st .emailUrgent 2
  if r.1 then simpleSpawn env r.2 q "hermes" .emailUrgent
  else dispatchGithub cfg env r.2 q

/-- PRIORITY 2: stuck tasks. -/
def dispatchStuck (cfg : Config) (env : TickEnv) (st : WorkState)
    (q : List QueueItem) : TickResult :=
  let r := gate (0 < env.scans.stuck) cfg env st .hermesWatch 2
  if r.1 then simpleSpawn env r.2 q "hermes" .hermesWatch
  else dispatchEmailUrgent cfg env r.2 q

/-- PRIORITY 2: stale in-progress task, nudging its assignee with a
per-agent-task backoff key. -/
def dispatchInprogStale (cfg : Config) (env : TickEnv) (st : WorkState)
    (q : List QueueItem) : TickResult :=
  match env.scans.inProgressStale with
  | [] => dispatchStuck cfg env st q
  | pick :: _ =>
      let r := gate (pick.agentId ≠ "") cfg env st (.inprogStale pick.agentId pick.taskId) 2
      if r.1 then
        specialistSpawn env r.2 q pick.agentId
          (some (Candidate.inprogStale pick.agentId pick.taskId).key)
          (.inprogStale pick.agentId pick.taskId)
      else dispatchStuck cfg env r.2 q

/-- PRIORITY 2: review/done tasks awaiting a Hermes outcome. -/
def dispatchOutcome (cfg : Config) (env : TickEnv) (st : WorkState)
    (q : List QueueItem) : TickResult :=
  let r := gate (0 < env.scans.needsOutcome) cfg env st .hermesOutcome 2
  if r.1 then simpleSpawn env r.2 q "hermes" .hermesOutcome
  else dispatchInprogStale cfg env r.2 q

/-- PRIORITY 2: agent-performance flags. -/
def dispatchHr (cfg : Config) (env : TickEnv) (st : WorkState)
    (q : List QueueItem) : TickResult :=
  let r := gate (0 < env.scans.perfFlags) cfg env st .hermesHr 2
  if r.1 then simpleSpawn env r.2 q "hermes" .hermesHr
  else dispatchOutcome cfg env r.2 q

/-- PRIORITY 2: the weekly Hermes report.  The persisted week marker is
advanced before the executor is invoked. -/
def dispatchWeekly (cfg : Config) (env : TickEnv) (st : WorkState)
    (q : List QueueItem) : TickResult :=
  let r := gate (shouldWeekly env st = true) cfg env st (.weeklyReport env.wk) 2
  if r.1 then
    simpleSpawn env { r.2 with lastWeeklyWeek := some env.wk, lastWeeklyAt := env.now } q
      "hermes" (.weeklyReport env.wk)
  else dispatchHr cfg env r.2 q

/-- PRIORITY 1: system log errors. -/
def dispatchLogs (cfg : Config) (env : TickEnv) (st : WorkState)
    (q : List QueueItem) : TickResult :=
  let r := gate (0 < env.scans.logsErrors) cfg env st .logsError 1
  if r.1 then simpleSpawn env r.2 q "hermes" .logsError
  else dispatchWeekly cfg env r.2 q

/-- PRIORITY 1: assigned task awaiting first touch, nudging its assignee with
a per-agent-task backoff key. -/
def dispatchAssigned (cfg : Config) (env : TickEnv) (st : WorkState)
    (q : List QueueItem) : TickResult :=
  match env.scans.assignedReady with
  | [] => dispatchLogs cfg env st q
  | pick :: _ =>
      let r := gate (pick.agentId ≠ "") cfg env st
        (.assignedFirstTouch pick.agentId pick.taskId) 1
      if r.1 then
        specialistSpawn env r.2 q pick.agentId
          (some (Candidate.assignedFirstTouch pick.agentId pick.taskId).key)
          (.assignedFirstTouch pick.agentId pick.taskId)
      else dispatchLogs cfg env r.2 q

/-- PRIORITY 1: process the oldest claimable mention-queue item. -/
def dispatchMention (cfg : Config) (env : TickEnv) (st : WorkState)
    (q : List QueueItem) : TickResult :=
  match nextQueuedMention q with
  | none => dispatchAssigned cfg env st q
  | some qi =>
      let r := shouldSpawnAgent cfg env.now env.quiet st (Candidate.mentionQueue qi.agentId).key 1
      if r.1 then mentionSpawn env r.2 q qi
      else dispatchAssigned cfg env r.2 q

/-- PRIORITY 1: token-burn alert. -/
def dispatchTokenAlert (cfg : Config) (env : TickEnv) (st : WorkState)
    (q : List QueueItem) : TickResult :=
  let r := gate (env.scans.tokensAlert = true) cfg env st .tokenAlert 1
  if r.1 then simpleSpawn env r.2 q "hermes" .tokenAlert
  else dispatchMention cfg env r.2 q

/-- The full priority cascade, starting from PRIORITY 1: unassigned inbox work
goes to Zeus first, ahead of the mention queue. -/
def dispatch (cfg : Config) (env : TickEnv) (st : WorkState)
    (q : List QueueItem) : TickResult :=
  let r := gate (0 < env.scans.unassigned) cfg env st .zeusAssign 1
  if r.1 then simpleSpawn env r.2 q "zeus" .zeusAssign
  else dispatchTokenAlert cfg env r.2 q

/-- Enqueue all freshly scanned comment mentions. -/
def enqueueTaskMentions (q : List QueueItem) (rows : List TaskMentionRow) : List QueueItem :=
  rows.foldl
    (fun acc r => enqueueMention r.queueId acc "task_comment" r.rowId r.taskId r.agentId
      r.createdAt) q

/-- Enqueue all description mentions of freshly created tasks. -/
def enqueueNewTaskMentions (q : List QueueItem) (rows : List NewTaskRow) : List QueueItem :=
  rows.foldl
    (fun acc r =>
      r.mentions.foldl
        (fun acc2 m => enqueueMention m.queueId acc2 "task_description" (r.taskId ++ ":desc")
          r.taskId m.agentRef r.createdAt) acc) q

/-- The part of `tick` that runs before the cascade: reap stuck processing
rows (TTL 10 minutes), bump the tick counter, and enqueue newly scanned
mentions. -/
def tickPrelude (env : TickEnv) (st : WorkState) (q : List QueueItem) :
    WorkState × List QueueItem :=
  let q1 := reapStuck env.now 600000 q
  let st1 := { st with tickCount := st.tickCount + 1 }
  let q2 := enqueueTaskMentions q1 env.scans.taskMentions
  let q3 := enqueueNewTaskMentions q2 env.scans.newTaskMentions
  (st1, q3)

/-- One full tick: prelude, then the priority cascade, which commits to the
first admissible candidate. -/
def tick (cfg : Config) (env : TickEnv) (st : WorkState) (q : List QueueItem) : TickResult :=
  dispatch cfg env (tickPrelude env st q).1 (tickPrelude env st q).2

/-- A sequence of ticks, threading the persisted state and the queue store,
accumulating the executor invocations. -/
def runTicks (cfg : Config) :
    WorkState → List QueueItem → List TickEnv → WorkState × List QueueItem × List Invocation
  | st, q, [] => (st, q, [])
  | st, q, e :: rest =>
      let r := tick cfg e st q
      let tl := runTicks cfg r.st r.queue rest
      (tl.1, tl.2.1, r.invocations ++ tl.2.2)

/-- Number of weekly-report invocations for week `w` in an invocation list. -/
def weeklyCountL (l : List Invocation) (w : String) : Nat :=
  l.countP (fun i => decide (i.candidate = Candidate.weeklyReport w))

@[simp]
theorem noteRun_week (now : Nat) (st : WorkState) :
    (noteRun now st).lastWeeklyWeek = st.lastWeeklyWeek := rfl

@[simp]
theorem setBackoff_week (now : Nat) (st : WorkState) (k r : String) :
    (setBackoff now st k r).lastWeeklyWeek = st.lastWeeklyWeek := rfl

@[simp]
theorem clearBackoff_week (st : WorkState) (k : String) :
    (clearBackoff st k).lastWeeklyWeek = st.lastWeeklyWeek := rfl

@[simp]
theorem ssa_snd_week (cfg : Config) (now : Nat) (quiet : Bool) (st : WorkState)
    (k : String) (p : Nat) :
    ((shouldSpawnAgent cfg now quiet st k p).2).lastWeeklyWeek = st.lastWeeklyWeek := by
  simp only [shouldSpawnAgent]
  repeat' split
  all_goals rfl

@[simp]
theorem gate_snd_week (c : Prop) [Decidable c] (cfg : Config) (env : TickEnv)
    (st : WorkState) (cand : Candidate) (p : Nat) :
    ((gate c cfg env st cand p).2).lastWeeklyWeek = st.lastWeeklyWeek := by
  unfold gate
  split
  · exact ssa_snd_week ..
  · rfl

theorem gate_fst (c : Prop) [Decidable c] (cfg : Config) (env : TickEnv)
    (st : WorkState) (cand : Candidate) (p : Nat) (h : (gate c cfg env st cand p).1 = true) :
    c := by
  by_contra hc
  rw [gate, if_neg hc] at h
  exact Bool.false_ne_true h

theorem simpleSpawn_invocations (env : TickEnv) (st : WorkState) (q : List QueueItem)
    (a : String) (c : Candidate) : (simpleSpawn env st q a c).invocations = [⟨a, c⟩] := by
  cases h : env.execOutcome <;> simp [simpleSpawn, h]

theorem simpleSpawn_queue (env : TickEnv) (st : WorkState) (q : List QueueItem)
    (a : String) (c : Candidate) : (simpleSpawn env st q a c).queue = q := by
  cases h : env.execOutcome <;> simp [simpleSpawn, h]

@[simp]
theorem simpleSpawn_week (env : TickEnv) (st : WorkState) (q : List QueueItem)
    (a : String) (c : Candidate) :
    (simpleSpawn env st q a c).st.lastWeeklyWeek = st.lastWeeklyWeek := by
  cases h : env.execOutcome <;> simp [simpleSpawn, h]

theorem specialistSpawn_invocations (env : TickEnv) (st : WorkState) (q : List QueueItem)
    (a : String) (ek : Option String) (c : Candidate) :
    (specialistSpawn env st q a ek c).invocations = [⟨a, c⟩] := by
  cases h : env.execOutcome <;> simp [specialistSpawn, h]

@[simp]
theorem specialistSpawn_week (env : TickEnv) (st : WorkState) (q : List QueueItem)
    (a : String) (ek : Option String) (c : Candidate) :
    (specialistSpawn env st q a ek c).st.lastWeeklyWeek = st.lastWeeklyWeek := by
  simp only [specialistSpawn]
  repeat' split
  all_goals simp

theorem mentionSpawn_inv_len (env : TickEnv) (st : WorkState) (q : List QueueItem)
    (qi : QueueItem) : (mentionSpawn env st q qi).invocations.length ≤ 1 := by
  simp only [mentionSpawn]
  repeat' split
  all_goals simp

@[simp]
theorem mentionSpawn_week (env : TickEnv) (st : WorkState) (q : List QueueItem)
    (qi : QueueItem) : (mentionSpawn env st q qi).st.lastWeeklyWeek = st.lastWeeklyWeek := by
  simp only [mentionSpawn]
  repeat' split
  all_goals simp

theorem mentionSpawn_weekly_count (env : TickEnv) (st : WorkState) (q : List QueueItem)
    (qi : QueueItem) (w : String) :
    weeklyCountL (mentionSpawn env st q qi).invocations w = 0 := by
  simp only [mentionSpawn, weeklyCountL]
  repeat' split
  all_goals simp

theorem weeklyCountL_single_ne (a : String) (c : Candidate) (w : String)
    (h : ∀ w2, c ≠ Candidate.weeklyReport w2) : weeklyCountL [⟨a, c⟩] w = 0 := by
  simp [weeklyCountL, List.countP_cons, h w]

theorem dispatchNone_len (st : WorkState) (q : List QueueItem) :
    (dispatchNone st q).invocations.length ≤ 1 := by
  simp [dispatchNone]

theorem dispatchEmailBatch_len (cfg : Config) (env : TickEnv) (st : WorkState)
    (q : List QueueItem) : (dispatchEmailBatch cfg env st q).invocations.length ≤ 1 := by
  simp only [dispatchEmailBatch]
  split
  · simp [simpleSpawn_invocations]
  · exact dispatchNone_len ..

theorem dispatchCalendar_len (cfg : Config) (env : TickEnv) (st : WorkState)
    (q : List QueueItem) : (dispatchCalendar cfg env st q).invocations.length ≤ 1 := by
  simp only [dispatchCalendar]
  split
  · simp [simpleSpawn_invocations]
  · exact dispatchEmailBatch_len ..

theorem dispatchFiles_len (cfg : Config) (env : TickEnv) (st : WorkState)
    (q : List QueueItem) : (dispatchFiles cfg env st q).invocations.length ≤ 1 := by
  simp only [dispatchFiles]
  split
  · simp [simpleSpawn_invocations]
  · exact dispatchCalendar_len ..

theorem dispatchOverdue_len (cfg : Config) (env : TickEnv) (st : WorkState)
    (q : List QueueItem) : (dispatchOverdue cfg env st q).invocations.length ≤ 1 := by
  simp only [dispatchOverdue]
  repeat' split
  all_goals first
    | exact dispatchFiles_len ..
    | (simp [specialistSpawn_invocations]; done)

theorem dispatchGithub_len (cfg : Config) (env : TickEnv) (st : WorkState)
    (q : List QueueItem) : (dispatchGithub cfg env st q).invocations.length ≤ 1 := by
  simp only [dispatchGithub]
  split
  · simp [simpleSpawn_invocations]
  · exact dispatchOverdue_len ..

theorem dispatchEmailUrgent_len (cfg : Config) (env : TickEnv) (st : WorkState)
    (q : List QueueItem) : (dispatchEmailUrgent cfg env st q).invocations.length ≤ 1 := by
  simp only [dispatchEmailUrgent]
  split
  · simp [simpleSpawn_invocations]
  · exact dispatchGithub_len ..

theorem dispatchStuck_len (cfg : Config) (env : TickEnv) (st : WorkState)
    (q : List QueueItem) : (dispatchStuck cfg env st q).invocations.length ≤ 1 := by
  simp only [dispatchStuck]
  split
  · simp [simpleSpawn_invocations]
  · exact dispatchEmailUrgent_len ..

theorem dispatchInprogStale_len (cfg : Config) (env : TickEnv) (st : WorkState)
    (q : List QueueItem) : (dispatchInprogStale cfg env st q).invocations.length ≤ 1 := by
  simp only [dispatchInprogStale]
  repeat' split
  all_goals first
    | (simp [specialistSpawn_invocations]; done)
    | exact dispatchStuck_len ..

theorem dispatchOutcome_len (cfg : Config) (env : TickEnv) (st : WorkState)
    (q : List QueueItem) : (dispatchOutcome cfg env st q).invocations.length ≤ 1 := by
  simp only [dispatchOutcome]
  split
  · simp [simpleSpawn_invocations]
  · exact dispatchInprogStale_len ..

theorem dispatchHr_len (cfg : Config) (env : TickEnv) (st : WorkState)
    (q : List QueueItem) : (dispatchHr cfg env st q).invocations.length ≤ 1 := by
  simp only [dispatchHr]
  split
  · simp [simpleSpawn_invocations]
  · exact dispatchOutcome_len ..

theorem dispatchWeekly_len (cfg : Config) (env : TickEnv) (st : WorkState)
    (q : List QueueItem) : (dispatchWeekly cfg env st q).invocations.length ≤ 1 := by
  simp only [dispatchWeekly]
  split
  · simp [simpleSpawn_invocations]
  · exact dispatchHr_len ..

theorem dispatchLogs_len (cfg : Config) (env : TickEnv) (st : WorkState)
    (q : List QueueItem) : (dispatchLogs cfg env st q).invocations.length ≤ 1 := by
  simp only [dispatchLogs]
  split
  · simp [simpleSpawn_invocations]
  · exact dispatchWeekly_len ..

theorem dispatchAssigned_len (cfg : Config) (env : TickEnv) (st : WorkState)
    (q : List QueueItem) : (dispatchAssigned cfg env st q).invocations.length ≤ 1 := by
  simp only [dispatchAssigned]
  repeat' split
  all_goals first
    | (simp [specialistSpawn_invocations]; done)
    | exact dispatchLogs_len ..

theorem dispatchMention_len (cfg : Config) (env : TickEnv) (st : WorkState)
    (q : List QueueItem) : (dispatchMention cfg env st q).invocations.length ≤ 1 := by
  simp only [dispatchMention]
  repeat' split
  all_goals first
    | exact mentionSpawn_inv_len ..
    | exact dispatchAssigned_len ..

theorem dispatchTokenAlert_len (cfg : Config) (env : TickEnv) (st : WorkState)
    (q : List QueueItem) : (dispatchTokenAlert cfg env st q).invocations.length ≤ 1 := by
  simp only [dispatchTokenAlert]
  split
  · simp [simpleSpawn_invocations]
  · exact dispatchMention_len ..

theorem dispatch_inv_len (cfg : Config) (env : TickEnv) (st : WorkState)
    (q : List QueueItem) : (dispatch cfg env st q).invocations.length ≤ 1 := by
  simp only [dispatch]
  split
  · simp [simpleSpawn_invocations]
  · exact dispatchTokenAlert_len ..

/-- Behaviour of a cascade suffix with respect to the weekly report: either it
performs no weekly invocation for the current week and leaves the marker `m`,
or it performs exactly one, sets the marker to the current week, and the guard
conditions held. -/
def WeeklySpec (r : TickResult) (env : TickEnv) (m : Option String) : Prop :=
  (weeklyCountL r.invocations env.wk = 0 ∧ r.st.lastWeeklyWeek = m)
  ∨ (weeklyCountL r.invocations env.wk = 1 ∧ r.st.lastWeeklyWeek = some env.wk
      ∧ env.dow = "Mon" ∧ env.hour = 9 ∧ m ≠ some env.wk)

theorem weeklySpec_mono (r : TickResult) (env : TickEnv) (m1 m2 : Option String)
    (hm : m1 = m2) (h : WeeklySpec r env m1) : WeeklySpec r env m2 := hm ▸ h

theorem and_marker_mono {r : TickResult} {w : String} {m1 m2 : Option String}
    (h : weeklyCountL r.invocations w = 0 ∧ r.st.lastWeeklyWeek = m1) (hm : m1 = m2) :
    weeklyCountL r.invocations w = 0 ∧ r.st.lastWeeklyWeek = m2 := ⟨h.1, h.2.trans hm⟩

theorem simpleSpawn_spec_ne (env : TickEnv) (st : WorkState) (q : List QueueItem)
    (a : String) (c : Candidate) (w : String) (h : ∀ w2, c ≠ Candidate.weeklyReport w2) :
    weeklyCountL (simpleSpawn env st q a c).invocations w = 0
    ∧ (simpleSpawn env st q a c).st.lastWeeklyWeek = st.lastWeeklyWeek := by
  constructor
  · rw [simpleSpawn_invocations]
    exact weeklyCountL_single_ne _ _ _ h
  · rw [simpleSpawn_week]

theorem specialistSpawn_spec_ne (env : TickEnv) (st : WorkState) (q : List QueueItem)
    (a : String) (ek : Option String) (c : Candidate) (w : String)
    (h : ∀ w2, c ≠ Candidate.weeklyReport w2) :
    weeklyCountL (specialistSpawn env st q a ek c).invocations w = 0
    ∧ (specialistSpawn env st q a ek c).st.lastWeeklyWeek = st.lastWeeklyWeek := by
  constructor
  · rw [specialistSpawn_invocations]
    exact weeklyCountL_single_ne _ _ _ h
  · rw [specialistSpawn_week]

theorem dispatchNone_spec (st : WorkState) (q : List QueueItem) (w : String) :
    weeklyCountL (dispatchNone st q).invocations w = 0
    ∧ (dispatchNone st q).st.lastWeeklyWeek = st.lastWeeklyWeek := by
  simp [dispatchNone, weeklyCountL]

theorem dispatchEmailBatch_spec (cfg : Config) (env : TickEnv) (st : WorkState)
    (q : List QueueItem) (w : String) :
    weeklyCountL (dispatchEmailBatch cfg env st q).invocations w = 0
    ∧ (dispatchEmailBatch cfg env st q).st.lastWeeklyWeek = st.lastWeeklyWeek := by
  simp only [dispatchEmailBatch]
  split
  · exact and_marker_mono (simpleSpawn_spec_ne env _ q _ _ w (fun w2 => by simp))
      (gate_snd_week ..)
  · exact and_marker_mono (dispatchNone_spec _ q w) (gate_snd_week ..)

theorem dispatchCalendar_spec (cfg : Config) (env : TickEnv) (st : WorkState)
    (q : List QueueItem) (w : String) :
    weeklyCountL (dispatchCalendar cfg env st q).invocations w = 0
    ∧ (dispatchCalendar cfg env st q).st.lastWeeklyWeek = st.lastWeeklyWeek := by
  simp only [dispatchCalendar]
  split
  · exact and_marker_mono (simpleSpawn_spec_ne env _ q _ _ w (fun w2 => by simp))
      (gate_snd_week ..)
  · exact and_marker_mono (dispatchEmailBatch_spec cfg env _ q w) (gate_snd_week ..)

theorem dispatchFiles_spec (cfg : Config) (env : TickEnv) (st : WorkState)
    (q : List QueueItem) (w : String) :
    weeklyCountL (dispatchFiles cfg env st q).invocations w = 0
    ∧ (dispatchFiles cfg env st q).st.lastWeeklyWeek = st.lastWeeklyWeek := by
  simp only [dispatchFiles]
  split
  · exact and_marker_mono (simpleSpawn_spec_ne env _ q _ _ w (fun w2 => by simp))
      (gate_snd_week ..)
  · exact and_marker_mono (dispatchCalendar_spec cfg env _ q w) (gate_snd_week ..)

theorem dispatchOverdue_spec (cfg : Config) (env : TickEnv) (st : WorkState)
    (q : List QueueItem) (w : String) :
    weeklyCountL (dispatchOverdue cfg env st q).invocations w = 0
    ∧ (dispatchOverdue cfg env st q).st.lastWeeklyWeek = st.lastWeeklyWeek := by
  simp only [dispatchOverdue]
  repeat' split
  all_goals first
    | exact and_marker_mono (specialistSpawn_spec_ne env _ q _ _ _ w (fun w2 => by simp))
        (ssa_snd_week ..)
    | exact and_marker_mono (dispatchFiles_spec cfg env _ q w) (ssa_snd_week ..)
    | exact and_marker_mono (dispatchFiles_spec cfg env _ q w) rfl

theorem dispatchGithub_spec (cfg : Config) (env : TickEnv) (st : WorkState)
    (q : List QueueItem) (w : String) :
    weeklyCountL (dispatchGithub cfg env st q).invocations w = 0
    ∧ (dispatchGithub cfg env st q).st.lastWeeklyWeek = st.lastWeeklyWeek := by
  simp only [dispatchGithub]
  split
  · exact and_marker_mono (simpleSpawn_spec_ne env _ q _ _ w (fun w2 => by simp))
      (gate_snd_week ..)
  · exact and_marker_mono (dispatchOverdue_spec cfg env _ q w) (gate_snd_week ..)

theorem dispatchEmailUrgent_spec (cfg : Config) (env : TickEnv) (st : WorkState)
    (q : List QueueItem) (w : String) :
    weeklyCountL (dispatchEmailUrgent cfg env st q).invocations w = 0
    ∧ (dispatchEmailUrgent cfg env st q).st.lastWeeklyWeek = st.lastWeeklyWeek := by
  simp only [dispatchEmailUrgent]
  split
  · exact and_marker_mono (simpleSpawn_spec_ne env _ q _ _ w (fun w2 => by simp))
      (gate_snd_week ..)
  · exact and_marker_mono (dispatchGithub_spec cfg env _ q w) (gate_snd_week ..)

theorem dispatchStuck_spec (cfg : Config) (env : TickEnv) (st : WorkState)
    (q : List QueueItem) (w : String) :
    weeklyCountL (dispatchStuck cfg env st q).invocations w = 0
    ∧ (dispatchStuck cfg env st q).st.lastWeeklyWeek = st.lastWeeklyWeek := by
  simp only [dispatchStuck]
  split
  · exact and_marker_mono (simpleSpawn_spec_ne env _ q _ _ w (fun w2 => by simp))
      (gate_snd_week ..)
  · exact and_marker_mono (dispatchEmailUrgent_spec cfg env _ q w) (gate_snd_week ..)

theorem dispatchInprogStale_spec (cfg : Config) (env : TickEnv) (st : WorkState)
    (q : List QueueItem) (w : String) :
    weeklyCountL (dispatchInprogStale cfg env st q).invocations w = 0
    ∧ (dispatchInprogStale cfg env st q).st.lastWeeklyWeek = st.lastWeeklyWeek := by
  simp only [dispatchInprogStale]
  repeat' split
  all_goals first
    | exact and_marker_mono (specialistSpawn_spec_ne env _ q _ _ _ w (fun w2 => by simp))
        (gate_snd_week ..)
    | exact and_marker_mono (dispatchStuck_spec cfg env _ q w) (gate_snd_week ..)
    | exact and_marker_mono (dispatchStuck_spec cfg env _ q w) rfl

theorem dispatchOutcome_spec (cfg : Config) (env : TickEnv) (st : WorkState)
    (q : List QueueItem) (w : String) :
    weeklyCountL (dispatchOutcome cfg env st q).invocations w = 0
    ∧ (dispatchOutcome cfg env st q).st.lastWeeklyWeek = st.lastWeeklyWeek := by
  simp only [dispatchOutcome]
  split
  · exact and_marker_mono (simpleSpawn_spec_ne env _ q _ _ w (fun w2 => by simp))
      (gate_snd_week ..)
  · exact and_marker_mono (dispatchInprogStale_spec cfg env _ q w) (gate_snd_week ..)

theorem dispatchHr_spec (cfg : Config) (env : TickEnv) (st : WorkState)
    (q : List QueueItem) (w : String) :
    weeklyCountL (dispatchHr cfg env st q).invocations w = 0
    ∧ (dispatchHr cfg env st q).st.lastWeeklyWeek = st.lastWeeklyWeek := by
  simp only [dispatchHr]
  split
  · exact and_marker_mono (simpleSpawn_spec_ne env _ q _ _ w (fun w2 => by simp))
      (gate_snd_week ..)
  · exact and_marker_mono (dispatchOutcome_spec cfg env _ q w) (gate_snd_week ..)

theorem dispatchWeekly_spec (cfg : Config) (env : TickEnv) (st : WorkState)
    (q : List QueueItem) :
    WeeklySpec (dispatchWeekly cfg env st q) env st.lastWeeklyWeek := by
  simp only [dispatchWeekly]
  split
  next h =>
    refine Or.inr ?_
    have hsw : shouldWeekly env st = true := gate_fst _ _ _ _ _ _ h
    rw [shouldWeekly] at hsw
    simp only [Bool.and_eq_true, beq_iff_eq, decide_eq_true_eq] at hsw
    obtain ⟨⟨⟨hdow, hh⟩, _hm⟩, hne⟩ := hsw
    refine ⟨?_, ?_, hdow, hh, hne⟩
    · rw [simpleSpawn_invocations]
      simp [weeklyCountL, List.countP_cons]
    · rw [simpleSpawn_week]
  next =>
    exact Or.inl (and_marker_mono (dispatchHr_spec cfg env _ q env.wk) (gate_snd_week ..))

theorem dispatchLogs_spec (cfg : Config) (env : TickEnv) (st : WorkState)
    (q : List QueueItem) :
    WeeklySpec (dispatchLogs cfg env st q) env st.lastWeeklyWeek := by
  simp only [dispatchLogs]
  split
  · exact Or.inl (and_marker_mono (simpleSpawn_spec_ne env _ q _ _ env.wk (fun w2 => by simp))
      (gate_snd_week ..))
  · exact weeklySpec_mono _ _ _ _ (gate_snd_week ..) (dispatchWeekly_spec ..)

theorem dispatchAssigned_spec (cfg : Config) (env : TickEnv) (st : WorkState)
    (q : List QueueItem) :
    WeeklySpec (dispatchAssigned cfg env st q) env st.lastWeeklyWeek := by
  simp only [dispatchAssigned]
  repeat' split
  all_goals first
    | exact Or.inl (and_marker_mono
        (specialistSpawn_spec_ne env _ q _ _ _ env.wk (fun w2 => by simp)) (gate_snd_week ..))
    | exact weeklySpec_mono _ _ _ _ (gate_snd_week ..) (dispatchLogs_spec ..)
    | exact weeklySpec_mono _ _ _ _ rfl (dispatchLogs_spec ..)

theorem dispatchMention_spec (cfg : Config) (env : TickEnv) (st : WorkState)
    (q : List QueueItem) :
    WeeklySpec (dispatchMention cfg env st q) env st.lastWeeklyWeek := by
  simp only [dispatchMention]
  repeat' split
  all_goals first
    | exact Or.inl (and_marker_mono
        ⟨mentionSpawn_weekly_count .., mentionSpawn_week ..⟩ (ssa_snd_week ..))
    | exact weeklySpec_mono _ _ _ _ (ssa_snd_week ..) (dispatchAssigned_spec ..)
    | exact weeklySpec_mono _ _ _ _ rfl (dispatchAssigned_spec ..)

theorem dispatchTokenAlert_spec (cfg : Config) (env : TickEnv) (st : WorkState)
    (q : List QueueItem) :
    WeeklySpec (dispatchTokenAlert cfg env st q) env st.lastWeeklyWeek := by
  simp only [dispatchTokenAlert]
  split
  · exact Or.inl (and_marker_mono (simpleSpawn_spec_ne env _ q _ _ env.wk (fun w2 => by simp))
      (gate_snd_week ..))
  · exact weeklySpec_mono _ _ _ _ (gate_snd_week ..) (dispatchMention_spec ..)

theorem dispatch_spec (cfg : Config) (env : TickEnv) (st : WorkState)
    (q : List QueueItem) :
    WeeklySpec (dispatch cfg env st q) env st.lastWeeklyWeek := by
  simp only [dispatch]
  split
  · exact Or.inl (and_marker_mono (simpleSpawn_spec_ne env _ q _ _ env.wk (fun w2 => by simp))
      (gate_snd_week ..))
  · exact weeklySpec_mono _ _ _ _ (gate_snd_week ..) (dispatchTokenAlert_spec ..)

theorem tick_spec (cfg : Config) (env : TickEnv) (st : WorkState) (q : List QueueItem) :
    WeeklySpec (tick cfg env st q) env st.lastWeeklyWeek := by
  unfold tick
  exact weeklySpec_mono _ _ _ _ rfl (dispatch_spec ..)

theorem weeklyCountL_append (l1 l2 : List Invocation) (w : String) :
    weeklyCountL (l1 ++ l2) w = weeklyCountL l1 w + weeklyCountL l2 w := by
  simp [weeklyCountL, List.countP_append]

theorem runTicks_no_weekly (cfg : Config) (w : String) :
    ∀ (envs : List TickEnv) (st : WorkState) (q : List QueueItem),
      st.lastWeeklyWeek = some w → (∀ e ∈ envs, e.wk = w) →
      weeklyCountL (runTicks cfg st q envs).2.2 w = 0
  | [], st, q, _, _ => by simp [runTicks, weeklyCountL]
  | e :: rest, st, q, hm, hw => by
      simp only [runTicks]
      rw [weeklyCountL_append]
      have he : e.wk = w := hw e (List.mem_cons_self ..)
      rcases tick_spec cfg e st q with ⟨h1, h2⟩ | ⟨_, _, _, _, h5⟩
      · rw [he] at h1
        rw [h1, runTicks_no_weekly cfg w rest _ _ (by rw [h2, hm])
          (fun e2 he2 => hw e2 (List.mem_cons_of_mem _ he2))]
      · exact absurd (by rw [hm, he]) h5

theorem runTicks_weekly_le_one (cfg : Config) (w : String) :
    ∀ (envs : List TickEnv) (st : WorkState) (q : List QueueItem),
      (∀ e ∈ envs, e.wk = w) →
      weeklyCountL (runTicks cfg st q envs).2.2 w ≤ 1
  | [], st, q, _ => by simp [runTicks, weeklyCountL]
  | e :: rest, st, q, hw => by
      simp only [runTicks]
      rw [weeklyCountL_append]
      have he : e.wk = w := hw e (List.mem_cons_self ..)
      rcases tick_spec cfg e st q with ⟨h1, _⟩ | ⟨h1, h2, _, _, _⟩
      · rw [he] at h1
        rw [h1]
        simpa using runTicks_weekly_le_one cfg w rest _ _
          (fun e2 he2 => hw e2 (List.mem_cons_of_mem _ he2))
      · rw [he] at h1 h2
        rw [h1, runTicks_no_weekly cfg w rest _ _ h2
          (fun e2 he2 => hw e2 (List.mem_cons_of_mem _ he2))]

/-! ## Claim theorems about the dispatcher -/

/-- C1: for every tick, whatever the scan-signal combination, executor
outcome, queue and state, the ordered cascade commits to at most one
candidate, so at most one Agent Executor invocation occurs before the tick
ends. -/
theorem tick_at_most_one_invocation (cfg : Config) (env : TickEnv) (st : WorkState)
    (q : List QueueItem) : (tick cfg env st q).invocations.length ≤ 1 := by
  unfold tick
  exact dispatch_inv_len ..

/-- C4: when a tick sees unassigned inbox work together with a claimable
mention-queue item and the unassigned-inbox candidate is admissible, the
dispatcher performs exactly the Zeus-assignment invocation and leaves the
mention-queue store untouched for that tick. -/
theorem unassigned_beats_mention_queue (cfg : Config) (env : TickEnv) (st : WorkState)
    (q : List QueueItem)
    (hsig : 0 < env.scans.unassigned)
    (hclaimable : (nextQueuedMention (tickPrelude env st q).2).isSome = true)
    (hpass : (shouldSpawnAgent cfg env.now env.quiet (tickPrelude env st q).1
        Candidate.zeusAssign.key 1).1 = true) :
    (tick cfg env st q).invocations = [⟨"zeus", Candidate.zeusAssign⟩]
    ∧ (tick cfg env st q).queue = (tickPrelude env st q).2 := by
  simp only [tick, dispatch, gate]
  rw [if_pos hsig, if_pos hpass]
  exact ⟨simpleSpawn_invocations .., simpleSpawn_queue ..⟩

/-- Rate limits from the source defaults (`120` runs/hour, `30`s interval). -/
def wCfg : Config := { maxRunsPerHour := 120, minIntervalMs := 30000 }

/-- A scan result with every signal absent. -/
def zeroScans : Scans :=
  { unassigned := 0, tokensAlert := false, assignedReady := [], logsErrors := 0,
    perfFlags := 0, needsOutcome := 0, inProgressStale := [], stuck := 0, emailsUrgent := 0,
    emailsUnread := 0, ghNotifications := 0, ghMentions := 0, overdue := 0, filesNew := 0,
    calUpcoming := 0, taskMentions := [], newTaskMentions := [] }

/-- A pending comment mention for `apollo`. -/
def pendingItem : QueueItem :=
  { id := "q1", kind := "task_comment", sourceId := "s1", taskId := "t1", agentId := "apollo",
    createdAt := 100, status := "pending", processingStartedAt := none, tries := 0,
    lastError := none }

/-- A quiet Tuesday-noon tick environment with one unassigned inbox task. -/
def inboxEnv : TickEnv :=
  { now := 10000000, quiet := false, dow := "Tue", hour := 12, minute := 0, wk := "2026-10",
    scans := { zeroScans with unassigned := 1 }, execOutcome := .ok "ASSIGNED",
    mentionRowFound := true, taskRowFound := true, overduePick := none }

/-- Witness for `unassigned_beats_mention_queue`: with one inbox task and one
pending mention, the tick spawns Zeus and the queue is untouched. -/
theorem unassigned_beats_mention_queue_witness :
    (tick wCfg inboxEnv (initialState 0) [pendingItem]).invocations =
      [⟨"zeus", Candidate.zeusAssign⟩]
    ∧ (tick wCfg inboxEnv (initialState 0) [pendingItem]).queue =
      (tickPrelude inboxEnv (initialState 0) [pendingItem]).2 :=
  unassigned_beats_mention_queue wCfg inboxEnv (initialState 0) [pendingItem]
    (by decide) (by decide) (by decide)

/-- C7 (amended): reply-text classification belongs to the specialist-work
path, not to mention processing: a successful specialist spawn with an event
key records an `agent_blocked` failure when the reply contains the BLOCKED
marker and clears the key otherwise, while the mention-queue processing path
never touches the backoff table. -/
theorem blocked_reply_backoff (env : TickEnv) (st : WorkState) (q : List QueueItem)
    (agentId key : String) (c : Candidate) :
    (∀ reply, env.execOutcome = .ok reply → replyBlocked reply = true →
      (specialistSpawn env st q agentId (some key) c).st.backoff =
        (setBackoff env.now st key "agent_blocked").backoff)
    ∧ (∀ reply, env.execOutcome = .ok reply → replyBlocked reply = false →
      (specialistSpawn env st q agentId (some key) c).st.backoff key = none)
    ∧ (∀ qi, (mentionSpawn env st q qi).st.backoff = st.backoff) := by
  refine ⟨?_, ?_, ?_⟩
  · intro reply hok hb
    simp [specialistSpawn, hok, hb, noteRun]
  · intro reply hok hb
    simp [specialistSpawn, hok, hb, noteRun, clearBackoff]
  · intro qi
    simp only [mentionSpawn]
    repeat' split
    all_goals rfl

/-- A Tuesday tick whose executor reply is the literal BLOCKED marker. -/
def blockedEnv : TickEnv :=
  { now := 10000000, quiet := false, dow := "Tue", hour := 12, minute := 0, wk := "2026-10",
    scans := zeroScans, execOutcome := .ok "BLOCKED", mentionRowFound := true,
    taskRowFound := true, overduePick := none }

/-- The same tick with a non-BLOCKED reply. -/
def workedEnv : TickEnv := { blockedEnv with execOutcome := .ok "WORKED today" }

/-- Witness for `blocked_reply_backoff` on concrete replies. -/
theorem blocked_reply_backoff_witness :
    (specialistSpawn blockedEnv (initialState 0) [] "apollo" (some "inprog-stale:apollo:t1")
        (.inprogStale "apollo" "t1")).st.backoff =
      (setBackoff blockedEnv.now (initialState 0) "inprog-stale:apollo:t1"
        "agent_blocked").backoff
    ∧ (specialistSpawn workedEnv (initialState 0) [] "apollo" (some "inprog-stale:apollo:t1")
        (.inprogStale "apollo" "t1")).st.backoff "inprog-stale:apollo:t1" = none
    ∧ (mentionSpawn blockedEnv (initialState 0) [] pendingItem).st.backoff =
      (initialState 0).backoff := by
  refine ⟨?_, ?_, ?_⟩
  · exact (blocked_reply_backoff blockedEnv (initialState 0) [] "apollo"
      "inprog-stale:apollo:t1" (.inprogStale "apollo" "t1")).1 "BLOCKED" rfl (by decide)
  · exact (blocked_reply_backoff workedEnv (initialState 0) [] "apollo"
      "inprog-stale:apollo:t1" (.inprogStale "apollo" "t1")).2.1 "WORKED today" rfl (by decide)
  · exact (blocked_reply_backoff blockedEnv (initialState 0) [] "apollo"
      "inprog-stale:apollo:t1" (.inprogStale "apollo" "t1")).2.2 pendingItem

/-- An expired backoff entry. -/
def staleEntry : BackoffEntry :=
  { untilMs := 5, strikes := 2, reason := "agent_blocked", lastAt := 1 }

/-- A state holding one expired backoff entry for the `apollo` mention key. -/
def staleBackoffSt : WorkState :=
  { initialState 0 with
    backoff := fun k => if k = "mention-queue:apollo" then some staleEntry else none }

/-- The BLOCKED tick with a non-BLOCKED reply. -/
def respondEnv : TickEnv := { blockedEnv with execOutcome := .ok "RESPONDED" }

/-- Counterexample to C7 as stated: a mention-queue item is processed, the
executor succeeds and its reply contains the BLOCKED marker, yet the stale
entry under the mention-queue backoff key is left exactly as it was — no
`recordFailure` happens; and with a non-BLOCKED reply the entry is not
cleared either. -/
theorem mention_blocked_counterexample :
    (tick wCfg blockedEnv staleBackoffSt [pendingItem]).invocations =
      [⟨"apollo", Candidate.mentionQueue "apollo"⟩]
    ∧ (tick wCfg blockedEnv staleBackoffSt [pendingItem]).st.backoff "mention-queue:apollo" =
      some staleEntry
    ∧ (tick wCfg respondEnv staleBackoffSt [pendingItem]).st.backoff "mention-queue:apollo" =
      some staleEntry := by
  refine ⟨by decide, by decide, by decide⟩

/-- C8: the weekly report fires at most once per ISO week.  Across any run of
ticks sharing one week key — including across restarts, since the state is
threaded — at most one weekly-report invocation occurs; and a tick can fire
the weekly report only when the local day is Monday, the local hour is 9, and
the persisted marker differs from the current week key. -/
theorem weekly_report_once_per_week (cfg : Config) (w : String) (st : WorkState)
    (q : List QueueItem) (envs : List TickEnv)
    (hw : ∀ e ∈ envs, e.wk = w) :
    weeklyCountL (runTicks cfg st q envs).2.2 w ≤ 1
    ∧ (∀ (env : TickEnv) (st1 : WorkState) (q1 : List QueueItem),
        0 < weeklyCountL (tick cfg env st1 q1).invocations env.wk →
        env.dow = "Mon" ∧ env.hour = 9 ∧ st1.lastWeeklyWeek ≠ some env.wk) := by
  constructor
  · exact runTicks_weekly_le_one cfg w envs st q hw
  · intro env st1 q1 hpos
    rcases tick_spec cfg env st1 q1 with ⟨h1, _⟩ | ⟨_, _, h3, h4, h5⟩
    · omega
    · exact ⟨h3, h4, h5⟩

/-- A Monday-09:00 tick environment with no other signals. -/
def mondayEnv : TickEnv :=
  { now := 10000000, quiet := false, dow := "Mon", hour := 9, minute := 0, wk := "2026-10",
    scans := zeroScans, execOutcome := .ok "WEEKLY_REPORTED", mentionRowFound := true,
    taskRowFound := true, overduePick := none }

/-- Witness for `weekly_report_once_per_week`: two consecutive Monday-09:00
ticks in the same ISO week fire at most once, and a firing tick implies the
guard conditions. -/
theorem weekly_report_once_per_week_witness :
    weeklyCountL (runTicks wCfg (initialState 0) []
        [mondayEnv, { mondayEnv with now := 10060000 }]).2.2 "2026-10" ≤ 1
    ∧ (mondayEnv.dow = "Mon" ∧ mondayEnv.hour = 9
        ∧ (initialState 0).lastWeeklyWeek ≠ some mondayEnv.wk) := by
  refine ⟨?_, ?_⟩
  · exact (weekly_report_once_per_week wCfg "2026-10" (initialState 0) []
      [mondayEnv, { mondayEnv with now := 10060000 }] (by decide)).1
  · exact (weekly_report_once_per_week wCfg "2026-10" (initialState 0) [] [] (by decide)).2
      mondayEnv (initialState 0) [] (by decide)

/-- C10: if the weekly-report tick's executor call fails, the persisted
week marker has nevertheless been advanced to the current ISO week and the
failure is swallowed, so no later tick of the same ISO week fires the weekly
report again. -/
theorem weekly_marker_survives_failure (cfg : Config) (env : TickEnv) (st : WorkState)
    (q : List QueueItem) (msg : String)
    (hfail : env.execOutcome = .err msg)
    (hfired : 0 < weeklyCountL (tick cfg env st q).invocations env.wk) :
    (tick cfg env st q).st.lastWeeklyWeek = some env.wk
    ∧ (∀ (env2 : TickEnv) (q2 : List QueueItem), env2.wk = env.wk →
        weeklyCountL (tick cfg env2 (tick cfg env st q).st q2).invocations env2.wk = 0) := by
  rcases tick_spec cfg env st q with ⟨h1, _⟩ | ⟨_, h2, _, _, _⟩
  · omega
  · refine ⟨h2, ?_⟩
    intro env2 q2 hwk
    rcases tick_spec cfg env2 ((tick cfg env st q).st) q2 with ⟨h1b, _⟩ | ⟨_, _, _, _, h5b⟩
    · exact h1b
    · exact absurd (by rw [h2, hwk]) h5b

/-- The Monday-09:00 tick whose executor call fails. -/
def mondayFailEnv : TickEnv := { mondayEnv with execOutcome := .err "spawn timeout" }

/-- Witness for `weekly_marker_survives_failure`: a failing weekly tick
advances the marker and the next Monday-09:05 tick of the same week does not
fire. -/
theorem weekly_marker_survives_failure_witness :
    (tick wCfg mondayFailEnv (initialState 0) []).st.lastWeeklyWeek = some "2026-10"
    ∧ weeklyCountL (tick wCfg { mondayFailEnv with now := 10300000, minute := 5 }
        (tick wCfg mondayFailEnv (initialState 0) []).st []).invocations "2026-10" = 0 := by
  refine ⟨?_, ?_⟩
  · exact (weekly_marker_survives_failure wCfg mondayFailEnv (initialState 0) []
      "spawn timeout" rfl (by decide)).1
  · exact (weekly_marker_survives_failure wCfg mondayFailEnv (initialState 0) []
      "spawn timeout" rfl (by decide)).2 { mondayFailEnv with now := 10300000, minute := 5 }
      [] rfl

end Workloop
